import Mathlib

/-!
Shallow embedding of the Media-Manager catalog service
(src/server/storage.ts, src/server/routes.ts, src/shared/schema.ts).

Timestamps are modelled as natural numbers (milliseconds since the epoch,
the value of Date.getTime()).  The JavaScript Map that backs MemStorage is
modelled as a list of movies in insertion order: Map.values() iterates in
insertion order, Map.set on an existing key overwrites in place keeping the
position, Map.set on a fresh key appends, Map.delete removes the entry.
The nondeterministic inputs of the real code (crypto.randomUUID and
Date.now) are passed as explicit parameters.
-/

/-- InsertMovie (src/shared/schema.ts): the creatable fields of a movie,
that is every column except id, createdAt and updatedAt. -/
structure InsertMovie where
  title : String
  type : String
  director : String
  budget : String
  location : String
  duration : String
  yearTime : String
deriving Repr, DecidableEq

/-- Movie (src/shared/schema.ts): a full catalog entry. -/
structure Movie where
  id : String
  title : String
  type : String
  director : String
  budget : String
  location : String
  duration : String
  yearTime : String
  createdAt : Nat
  updatedAt : Nat
deriving Repr, DecidableEq

/-- The comparator of MemStorage.getAllMovies (storage.ts line 23):
sort((a, b) => b.createdAt.getTime() - a.createdAt.getTime()); a JS stable
sort places a before b exactly when the comparator is nonpositive, i.e.
when b.createdAt is at most a.createdAt (descending order). -/
def movieLe (a b : Movie) : Bool :=
  b.createdAt ≤ a.createdAt

/-- The sorted view Array.from(map.values()).sort(comparator) of
MemStorage.getAllMovies; JS Array.prototype.sort is a stable sort
(ECMAScript 2019), modelled by List.mergeSort. -/
def sortMovies (s : List Movie) : List Movie :=
  s.mergeSort movieLe

/-- MemStorage.getAllMovies (storage.ts lines 20-25): skip = (page-1)*limit,
stable-sort descending by createdAt, slice(skip, skip + limit). -/
def getAllMovies (page limit : Nat) (s : List Movie) : List Movie :=
  let skip := (page - 1) * limit
  ((sortMovies s).drop skip).take limit

/-- MemStorage.getMovie (storage.ts lines 27-29): Map.get by id. -/
def getMovie (id : String) (s : List Movie) : Option Movie :=
  s.find? (fun m => m.id == id)

/-- MemStorage.getMoviesCount (storage.ts lines 31-33): Map.size. -/
def getMoviesCount (s : List Movie) : Nat :=
  s.length

/-- Map.set semantics of the insertion-ordered map: overwrite in place when
the key is present, append otherwise. -/
def mapSet (s : List Movie) (m : Movie) : List Movie :=
  if s.any (fun x => x.id == m.id) then
    s.map (fun x => if x.id == m.id then m else x)
  else
    s ++ [m]

/-- The movie value built by MemStorage.createMovie (storage.ts lines 35-46):
spread of the insert fields plus id, createdAt = updatedAt = now. -/
def mkMovie (f : InsertMovie) (id : String) (now : Nat) : Movie :=
  { id := id
    title := f.title
    type := f.type
    director := f.director
    budget := f.budget
    location := f.location
    duration := f.duration
    yearTime := f.yearTime
    createdAt := now
    updatedAt := now }

/-- MemStorage.createMovie (storage.ts lines 35-46): build the movie with a
fresh random id and the current time, store it, return it. -/
def createMovie (f : InsertMovie) (id : String) (now : Nat) (s : List Movie) :
    Movie × List Movie :=
  let movie := mkMovie f id now
  (movie, mapSet s movie)

/-- Partial InsertMovie (the body of a PUT request after
insertMovieSchema.partial()): each field optional; none models an absent
key of the JSON object. -/
structure MovieUpdate where
  title : Option String := none
  type : Option String := none
  director : Option String := none
  budget : Option String := none
  location : Option String := none
  duration : Option String := none
  yearTime : Option String := none
deriving Repr, DecidableEq

/-- The merged movie of MemStorage.updateMovie (storage.ts lines 53-57):
spread of the existing movie, then the supplied fields, then
updatedAt = now; id and createdAt are not assignable through the update
payload, so they are retained from the existing movie. -/
def applyUpdate (m : Movie) (u : MovieUpdate) (now : Nat) : Movie :=
  { id := m.id
    title := u.title.getD m.title
    type := u.type.getD m.type
    director := u.director.getD m.director
    budget := u.budget.getD m.budget
    location := u.location.getD m.location
    duration := u.duration.getD m.duration
    yearTime := u.yearTime.getD m.yearTime
    createdAt := m.createdAt
    updatedAt := now }

/-- MemStorage.updateMovie (storage.ts lines 48-60): throw when the id is
absent, otherwise merge, store and return the merged movie. -/
def updateMovie (id : String) (u : MovieUpdate) (now : Nat) (s : List Movie) :
    Except String (Movie × List Movie) :=
  match getMovie id s with
  | none => .error "Movie not found"
  | some m =>
    let updated := applyUpdate m u now
    .ok (updated, mapSet s updated)

/-- MemStorage.deleteMovie (storage.ts lines 62-64): Map.delete; removing an
absent key is a no-op. -/
def deleteMovie (id : String) (s : List Movie) : List Movie :=
  s.filter (fun m => !(m.id == id))

/-! Validation layer (src/shared/schema.ts and the zod schemas of
src/server/routes.ts).  JS String.length counts UTF-16 code units; the
embedding counts characters, which agrees on the basic multilingual
plane. -/

/-- Rule for title in insertMovieSchema: z.string().min(2).max(255). -/
def titleValid (v : String) : Bool :=
  2 ≤ v.length && v.length ≤ 255

/-- Rule for type in insertMovieSchema (schema.ts line 21):
z.enum(["Movie", "TV Show"]). -/
def typeValid (v : String) : Bool :=
  v == "Movie" || v == "TV Show"

/-- Rule for director in insertMovieSchema: z.string().min(1).max(255). -/
def directorValid (v : String) : Bool :=
  1 ≤ v.length && v.length ≤ 255

/-- Rule for budget in insertMovieSchema: z.string().min(1).max(100). -/
def budgetValid (v : String) : Bool :=
  1 ≤ v.length && v.length ≤ 100

/-- Rule for location in insertMovieSchema: z.string().min(1).max(255). -/
def locationValid (v : String) : Bool :=
  1 ≤ v.length && v.length ≤ 255

/-- Rule for duration in insertMovieSchema: z.string().min(1).max(50). -/
def durationValid (v : String) : Bool :=
  1 ≤ v.length && v.length ≤ 50

/-- Rule for yearTime in insertMovieSchema: z.string().min(1).max(50). -/
def yearTimeValid (v : String) : Bool :=
  1 ≤ v.length && v.length ≤ 50

/-- insertMovieSchema (schema.ts lines 19-31): every field present and
passing its rule. -/
def insertMovieValid (b : InsertMovie) : Bool :=
  titleValid b.title && typeValid b.type && directorValid b.director &&
  budgetValid b.budget && locationValid b.location &&
  durationValid b.duration && yearTimeValid b.yearTime

/-- Validation of one optional field of insertMovieSchema.partial(): an
absent key passes, a present key must pass the field rule. -/
def optFieldValid (rule : String → Bool) : Option String → Bool
  | none => true
  | some v => rule v

/-- Object.keys(data).length of the parsed partial body: the number of
present fields. -/
def updateKeyCount (u : MovieUpdate) : Nat :=
  u.title.toList.length + u.type.toList.length + u.director.toList.length +
  u.budget.toList.length + u.location.toList.length +
  u.duration.toList.length + u.yearTime.toList.length

/-- updateSchema of the PUT handler (routes.ts lines 154-157):
insertMovieSchema.partial() refined so that at least one field is
present. -/
def updateValid (u : MovieUpdate) : Bool :=
  optFieldValid titleValid u.title && optFieldValid typeValid u.type &&
  optFieldValid directorValid u.director &&
  optFieldValid budgetValid u.budget &&
  optFieldValid locationValid u.location &&
  optFieldValid durationValid u.duration &&
  optFieldValid yearTimeValid u.yearTime &&
  0 < updateKeyCount u

/-- Character class of the zod uuid pattern (idParamSchema, routes.ts
lines 12-14): a hexadecimal digit of either case. -/
def isHexDigit (c : Char) : Bool :=
  c.isDigit || ('a' ≤ c && c ≤ 'f') || ('A' ≤ c && c ≤ 'F')

/-- Expected character at index i of a zod-accepted uuid string: dashes at
positions 8, 13, 18 and 23, hex digits elsewhere. -/
def zodUuidCharOK (i : Nat) (c : Char) : Bool :=
  if i == 8 || i == 13 || i == 18 || i == 23 then c == '-'
  else isHexDigit c

/-- idParamSchema (routes.ts lines 12-14): z.string().uuid(), the zod uuid
pattern: 36 characters shaped 8-4-4-4-12 over hex digits. -/
def isUuid (s : String) : Bool :=
  s.toList.length == 36 &&
  (List.range 36).all (fun i => zodUuidCharOK i (s.toList.getD i ' '))

/-- Lowercase hexadecimal digit. -/
def isLowerHex (c : Char) : Bool :=
  c.isDigit || ('a' ≤ c && c ≤ 'f')

/-- Expected character at index i of an output of crypto.randomUUID: the
RFC 4122 version-4 lowercase textual form, with the version nibble 4 at
index 14 and a variant nibble in 8, 9, a, b at index 19. -/
def v4CharOK (i : Nat) (c : Char) : Bool :=
  if i == 8 || i == 13 || i == 18 || i == 23 then c == '-'
  else if i == 14 then c == '4'
  else if i == 19 then c == '8' || c == '9' || c == 'a' || c == 'b'
  else isLowerHex c

/-- Characterization of the strings crypto.randomUUID (used by
MemStorage.createMovie, storage.ts line 36) can return: canonical
lowercase version-4 uuid text, per the WHATWG Crypto specification. -/
def isRandomUUID (s : String) : Bool :=
  s.toList.length == 36 &&
  (List.range 36).all (fun i => v4CharOK i (s.toList.getD i ' '))

/-! API layer (src/server/routes.ts).  Each handler is modelled as a pure
function of the request inputs, the current store state, and the explicit
nondeterministic inputs (random id, current time); it returns the HTTP
status with the response payload, and the store state after the call. -/

/-- Pagination metadata computed by calculatePagination (routes.ts
lines 16-26); pages is Math.ceil(total / limit), exact for a positive
integer limit. -/
structure Pagination where
  page : Nat
  limit : Nat
  total : Nat
  pages : Nat
  hasNext : Bool
  hasPrev : Bool
deriving Repr, DecidableEq

/-- Ceiling division on naturals, the value of Math.ceil(total / limit) for
limit ≥ 1. -/
def ceilDiv (total limit : Nat) : Nat :=
  (total + limit - 1) / limit

/-- calculatePagination (routes.ts lines 16-26). -/
def calculatePagination (page limit total : Nat) : Pagination :=
  { page := page
    limit := limit
    total := total
    pages := ceilDiv total limit
    hasNext := decide (page < ceilDiv total limit)
    hasPrev := decide (1 < page) }

/-- Response of the list route: status code, data array, pagination object
(absent on the 400 branch). -/
structure ListResponse where
  status : Nat
  data : List Movie
  pagination : Option Pagination
deriving Repr, DecidableEq

/-- Response of the single-movie routes: status code and optional movie
payload. -/
structure MovieResponse where
  status : Nat
  data : Option Movie
deriving Repr, DecidableEq

/-- GET /api/movies (routes.ts lines 30-67), after query coercion: reject
page or limit outside paginationSchema (page ≥ 1, 1 ≤ limit ≤ 100) with
400, otherwise 200 with the page of movies and the pagination object. -/
def handleGetMovies (page limit : Nat) (s : List Movie) : ListResponse :=
  if 1 ≤ page && 1 ≤ limit && limit ≤ 100 then
    { status := 200
      data := getAllMovies page limit s
      pagination := some (calculatePagination page limit (getMoviesCount s)) }
  else
    { status := 400, data := [], pagination := none }

/-- POST /api/movies (routes.ts lines 70-99): validate the body against
insertMovieSchema (400 on failure), otherwise create and answer 201 with
the created movie. -/
def handleCreateMovie (b : InsertMovie) (id : String) (now : Nat)
    (s : List Movie) : MovieResponse × List Movie :=
  if insertMovieValid b then
    let r := createMovie b id now s
    ({ status := 201, data := some r.1 }, r.2)
  else
    ({ status := 400, data := none }, s)

/-- GET /api/movies/:id (routes.ts lines 102-139): 400 on a malformed id,
404 when absent, 200 with the movie otherwise. -/
def handleGetMovie (idStr : String) (s : List Movie) : MovieResponse :=
  if isUuid idStr then
    match getMovie idStr s with
    | none => { status := 404, data := none }
    | some m => { status := 200, data := some m }
  else
    { status := 400, data := none }

/-- PUT /api/movies/:id (routes.ts lines 142-196): 400 on a malformed id,
400 when the body fails the partial schema or is empty, 404 when the id is
absent (checked through storage.getMovie before updating), otherwise
update and answer 200 with the merged movie; a throw inside updateMovie
would be caught and answered 500. -/
def handlePutMovie (idStr : String) (u : MovieUpdate) (now : Nat)
    (s : List Movie) : MovieResponse × List Movie :=
  if isUuid idStr then
    if updateValid u then
      match getMovie idStr s with
      | none => ({ status := 404, data := none }, s)
      | some _ =>
        match updateMovie idStr u now s with
        | .error _ => ({ status := 500, data := none }, s)
        | .ok r => ({ status := 200, data := some r.1 }, r.2)
    else
      ({ status := 400, data := none }, s)
  else
    ({ status := 400, data := none }, s)

/-! Trace semantics of the store: the reachable states of MemStorage are
the states obtained from the empty map by a sequence of create, update and
delete operations.  Each mutating operation carries the wall-clock reading
Date.now observed during it; real wall clocks are nondecreasing, which is
stated as an explicit hypothesis on traces. -/

/-- One mutating store operation, with its explicit random id and clock
reading. -/
inductive StoreOp where
  | create (f : InsertMovie) (id : String) (now : Nat)
  | update (id : String) (u : MovieUpdate) (now : Nat)
  | delete (id : String)
deriving Repr

/-- Effect of one operation on the store state.  A failing update (absent
id) throws in MemStorage and leaves the map unchanged. -/
def applyOp (s : List Movie) : StoreOp → List Movie
  | .create f id now => (createMovie f id now s).2
  | .update id u now =>
    match updateMovie id u now s with
    | .error _ => s
    | .ok r => r.2
  | .delete id => deleteMovie id s

/-- Run a sequence of operations from a given state, earliest first. -/
def runOps (s : List Movie) : List StoreOp → List Movie
  | [] => s
  | op :: ops => runOps (applyOp s op) ops

/-- Clock discipline of a trace: starting from a lower bound t, every
clock reading carried by an operation is at least the previous one. -/
def clockOK (t : Nat) : List StoreOp → Bool
  | [] => true
  | .create _ _ now :: ops => t ≤ now && clockOK now ops
  | .update _ _ now :: ops => t ≤ now && clockOK now ops
  | .delete _ :: ops => clockOK t ops

/-- Timestamp sanity of a state at clock lower bound t: every entry has
createdAt at most updatedAt, and updatedAt at most t. -/
def stateTimesOK (t : Nat) (s : List Movie) : Bool :=
  s.all (fun m => m.createdAt ≤ m.updatedAt && m.updatedAt ≤ t)

/-! Concrete demonstration data used by the witness theorems. -/

/-- A canonical lowercase version-4 uuid string. -/
def demoUuid : String := "9f1b2c3d-4e5f-4a6b-8c7d-0e1f2a3b4c5d"

/-- Another canonical lowercase version-4 uuid string. -/
def demoUuidB : String := "1a2b3c4d-5e6f-4abc-9def-123456789abc"

/-- A concrete stored movie. -/
def demoMovieA : Movie :=
  { id := demoUuid
    title := "Dune"
    type := "Movie"
    director := "Denis Villeneuve"
    budget := "$165M"
    location := "Jordan"
    duration := "155 min"
    yearTime := "2021"
    createdAt := 100
    updatedAt := 100 }

/-- Another concrete stored movie, created later. -/
def demoMovieB : Movie :=
  { id := demoUuidB
    title := "Severance"
    type := "TV Show"
    director := "Ben Stiller"
    budget := "$20M"
    location := "New York"
    duration := "50 min"
    yearTime := "2022"
    createdAt := 200
    updatedAt := 200 }

/-- A concrete store state with two movies in insertion order. -/
def demoMovies : List Movie := [demoMovieA, demoMovieB]

/-- DELETE /api/movies/:id (routes.ts lines 199-238): 400 on a malformed
id, 404 when absent (checked through storage.getMovie before deleting),
otherwise delete and answer 200 with data null. -/
def handleDeleteMovie (idStr : String) (s : List Movie) :
    MovieResponse × List Movie :=
  if isUuid idStr then
    match getMovie idStr s with
    | none => ({ status := 404, data := none }, s)
    | some _ => ({ status := 200, data := none }, deleteMovie idStr s)
  else
    ({ status := 400, data := none }, s)

/-! Helper lemmas about the sorted view. -/

/-- The comparator relation is transitive. -/
theorem movieLe_trans : ∀ (a b c : Movie), movieLe a b → movieLe b c → movieLe a c := by
  intro a b c hab hbc
  simp only [movieLe, decide_eq_true_eq] at hab hbc ⊢
  omega

/-- The comparator relation is total. -/
theorem movieLe_total : ∀ (a b : Movie), movieLe a b || movieLe b a := by
  intro a b
  simp only [movieLe, Bool.or_eq_true, decide_eq_true_eq]
  omega

/-- The sorted view is a permutation of the stored entries. -/
theorem sortMovies_perm (s : List Movie) : (sortMovies s).Perm s :=
  List.mergeSort_perm s movieLe

/-- The sorted view is ordered by createdAt descending. -/
theorem sortMovies_sorted (s : List Movie) :
    (sortMovies s).Pairwise (fun a b => b.createdAt ≤ a.createdAt) := by
  have h := List.sorted_mergeSort movieLe_trans movieLe_total s
  exact h.imp (fun hab => by simpa [movieLe] using hab)

/-- Stability of the sorted view: the entries carrying any fixed createdAt
value appear in the same relative order as in the store, that is in
insertion order. -/
theorem sortMovies_filter_stable (s : List Movie) (t : Nat) :
    (sortMovies s).filter (fun m => m.createdAt == t) =
      s.filter (fun m => m.createdAt == t) := by
  have hself : (s.filter (fun m => m.createdAt == t)).filter
      (fun m => m.createdAt == t) = s.filter (fun m => m.createdAt == t) :=
    List.filter_eq_self.mpr (fun a ha => (List.mem_filter.mp ha).2)
  have hsub : List.Sublist (s.filter (fun m => m.createdAt == t))
      (sortMovies s) := by
    apply List.sublist_mergeSort movieLe_trans movieLe_total
    · apply List.pairwise_of_forall_mem_list
      intro a ha b hb
      have ha2 := (List.mem_filter.mp ha).2
      have hb2 := (List.mem_filter.mp hb).2
      simp only [beq_iff_eq] at ha2 hb2
      simp [movieLe, ha2, hb2]
    · exact List.filter_sublist s
  have hsub2 : List.Sublist (s.filter (fun m => m.createdAt == t))
      ((sortMovies s).filter (fun m => m.createdAt == t)) := by
    have h := hsub.filter (fun m => m.createdAt == t)
    rwa [hself] at h
  have hperm : ((sortMovies s).filter (fun m => m.createdAt == t)).Perm
      (s.filter (fun m => m.createdAt == t)) :=
    (sortMovies_perm s).filter _
  exact (hsub2.eq_of_length hperm.length_eq.symm).symm

/-- Concatenating successive L-sized chunks of a list reassembles its
prefix. -/
theorem flatten_chunks (l : List Movie) (L : Nat) (k : Nat) :
    ((List.range k).map (fun i => (l.drop (i * L)).take L)).flatten =
      l.take (k * L) := by
  induction k with
  | zero => simp
  | succ k ih =>
    rw [List.range_succ, List.map_append, List.flatten_append, ih]
    have h : (k + 1) * L = k * L + L := by rw [Nat.add_mul, Nat.one_mul]
    rw [h, List.take_add]
    simp

/-- A page whose offset reaches the total count is empty. -/
theorem getAllMovies_nil_of_le (s : List Movie) (page limit : Nat)
    (h : s.length ≤ (page - 1) * limit) : getAllMovies page limit s = [] := by
  have hlen : (sortMovies s).length = s.length := by
    simp [sortMovies]
  have hnil : (sortMovies s).drop ((page - 1) * limit) = [] := by
    rw [List.drop_eq_nil_iff, hlen]
    exact h
  simp [getAllMovies, hnil]

/-- Ceiling division is enough pages to cover everything. -/
theorem le_ceilDiv_mul (N L : Nat) (hL : 1 ≤ L) : N ≤ ceilDiv N L * L := by
  unfold ceilDiv
  rcases Nat.eq_zero_or_pos N with h | h
  · simp [h]
  · have h1 : N + L - 1 = (N - 1) + L := by omega
    rw [h1, Nat.add_div_right _ (by omega)]
    have h4 := Nat.div_add_mod (N - 1) L
    have h5 : (N - 1) % L < L := Nat.mod_lt _ (by omega)
    have h6 : ((N - 1) / L + 1) * L = L * ((N - 1) / L) + L := by
      rw [Nat.add_mul, Nat.one_mul, Nat.mul_comm]
    omega

/-- C1: for every fixed collection state and positive page and limit,
getAllMovies returns the stored entries ordered by createdAt descending
(the sorted view is a permutation of the store, ordered descending, ties
kept in insertion order), starting at offset (page-1)*limit, with at most
limit items, and is empty whenever that offset reaches the total count. -/
theorem getAllMovies_paginates_sorted (s : List Movie) (page limit : Nat)
    (hpage : 1 ≤ page) (hlimit : 1 ≤ limit) :
    (sortMovies s).Perm s ∧
    (sortMovies s).Pairwise (fun a b => b.createdAt ≤ a.createdAt) ∧
    (∀ t, (sortMovies s).filter (fun m => m.createdAt == t) =
      s.filter (fun m => m.createdAt == t)) ∧
    getAllMovies page limit s =
      ((sortMovies s).drop ((page - 1) * limit)).take limit ∧
    (getAllMovies page limit s).length ≤ limit ∧
    (getMoviesCount s ≤ (page - 1) * limit → getAllMovies page limit s = []) := by
  exact ⟨sortMovies_perm s, sortMovies_sorted s,
    fun t => sortMovies_filter_stable s t, rfl, List.length_take_le _ _,
    fun hoff => getAllMovies_nil_of_le s page limit hoff⟩

/-- Witness for C1 at a concrete store, page and limit. -/
theorem getAllMovies_paginates_sorted_witness :
    1 ≤ 2 ∧ 1 ≤ 1 ∧ (getAllMovies 2 1 demoMovies).length ≤ 1 :=
  ⟨by decide, by decide,
    (getAllMovies_paginates_sorted demoMovies 2 1 (by decide) (by decide)).2.2.2.2.1⟩

/-- C3: for a fixed store of N entries and page size L ≥ 1, walking the
pages 1, 2, …, ceil(N/L) and concatenating the results yields the whole
sorted view, which holds every stored entry exactly once (a permutation of
the store) in createdAt-descending order. -/
theorem pagination_complete (s : List Movie) (L : Nat) (hL : 1 ≤ L) :
    ((List.range (ceilDiv (getMoviesCount s) L)).map
        (fun i => getAllMovies (i + 1) L s)).flatten = sortMovies s ∧
    (sortMovies s).Perm s ∧
    (sortMovies s).Pairwise (fun a b => b.createdAt ≤ a.createdAt) := by
  refine ⟨?_, sortMovies_perm s, sortMovies_sorted s⟩
  have hfun : (fun i => getAllMovies (i + 1) L s) =
      (fun i => ((sortMovies s).drop (i * L)).take L) := by
    funext i
    simp [getAllMovies]
  rw [hfun, flatten_chunks]
  apply List.take_of_length_le
  have hlen : (sortMovies s).length = s.length := by
    simp [sortMovies]
  rw [hlen]
  exact le_ceilDiv_mul s.length L hL

/-- Witness for C3 at a concrete store and page size. -/
theorem pagination_complete_witness :
    1 ≤ 1 ∧
    ((List.range (ceilDiv (getMoviesCount demoMovies) 1)).map
        (fun i => getAllMovies (i + 1) 1 demoMovies)).flatten =
      sortMovies demoMovies :=
  ⟨by decide, (pagination_complete demoMovies 1 (by decide)).1⟩

/-- C2: for every valid list request (page ≥ 1, 1 ≤ limit ≤ 100) the
response is 200, its pagination object is exactly
page, limit, total = store count, pages = ceil(total/limit),
hasNext = (page < pages), hasPrev = (page > 1), and for any page beyond
the last page the data is empty rather than an error; the empty-store
instance of Scenario F is the witness below. -/
theorem listRoute_pagination (s : List Movie) (page limit : Nat)
    (hpage : 1 ≤ page) (hl1 : 1 ≤ limit) (hl2 : limit ≤ 100) :
    (handleGetMovies page limit s).status = 200 ∧
    (handleGetMovies page limit s).pagination = some
      { page := page
        limit := limit
        total := getMoviesCount s
        pages := ceilDiv (getMoviesCount s) limit
        hasNext := decide (page < ceilDiv (getMoviesCount s) limit)
        hasPrev := decide (1 < page) } ∧
    (handleGetMovies page limit s).data = getAllMovies page limit s ∧
    (ceilDiv (getMoviesCount s) limit < page →
      (handleGetMovies page limit s).data = []) := by
  have hhandle : handleGetMovies page limit s =
      { status := 200
        data := getAllMovies page limit s
        pagination :=
          some (calculatePagination page limit (getMoviesCount s)) } := by
    simp only [handleGetMovies]
    rw [if_pos]
    simp only [Bool.and_eq_true, decide_eq_true_eq]
    exact ⟨⟨hpage, hl1⟩, hl2⟩
  refine ⟨by rw [hhandle], by rw [hhandle]; rfl, by rw [hhandle], ?_⟩
  intro hbeyond
  rw [hhandle]
  apply getAllMovies_nil_of_le
  have hmul : ceilDiv (getMoviesCount s) limit * limit ≤
      (page - 1) * limit :=
    Nat.mul_le_mul_right limit (by omega)
  have hcover := le_ceilDiv_mul (getMoviesCount s) limit hl1
  calc s.length = getMoviesCount s := rfl
    _ ≤ ceilDiv (getMoviesCount s) limit * limit := hcover
    _ ≤ (page - 1) * limit := hmul

/-- Witness for C2: Scenario F, the empty store with page 1 and limit 10
answers 200 with empty data, total 0 and hasNext false. -/
theorem listRoute_pagination_witness :
    (handleGetMovies 1 10 ([] : List Movie)).status = 200 ∧
    (handleGetMovies 1 10 ([] : List Movie)).data = [] ∧
    (handleGetMovies 1 10 ([] : List Movie)).pagination = some
      { page := 1, limit := 10, total := 0, pages := 0,
        hasNext := false, hasPrev := false } :=
  ⟨(listRoute_pagination [] 1 10 (by decide) (by decide) (by decide)).1,
    (listRoute_pagination [] 1 10 (by decide) (by decide) (by decide)).2.2.2
      (by decide),
    by decide⟩

/-! Helper lemmas about the insertion-ordered map. -/

/-- Replacing the entry keyed by the id of a movie makes lookup of that id
yield the movie, provided some entry carried the id. -/
theorem find?_map_set (m' : Movie) :
    ∀ (s : List Movie), s.any (fun x => x.id == m'.id) = true →
      (s.map (fun x => if x.id == m'.id then m' else x)).find?
        (fun x => x.id == m'.id) = some m'
  | [], h => by simp at h
  | x :: s, h => by
    by_cases hx : (x.id == m'.id) = true
    · simp only [List.map_cons, if_pos hx]
      exact List.find?_cons_of_pos _ (by simp)
    · simp only [List.map_cons, if_neg hx]
      rw [List.find?_cons_of_neg _ (by simpa using hx)]
      apply find?_map_set m' s
      simp only [List.any_cons, Bool.or_eq_true] at h
      rcases h with h | h
      · exact absurd h hx
      · exact h

/-- After Map.set the stored movie is retrievable under its id. -/
theorem getMovie_mapSet (s : List Movie) (m' : Movie) :
    getMovie m'.id (mapSet s m') = some m' := by
  unfold mapSet getMovie
  by_cases h : s.any (fun x => x.id == m'.id) = true
  · rw [if_pos h]
    exact find?_map_set m' s h
  · rw [if_neg h, List.find?_append]
    have hnone : s.find? (fun x => x.id == m'.id) = none :=
      List.find?_eq_none.mpr (fun x hx hbeq =>
        h (List.any_eq_true.mpr ⟨x, hx, hbeq⟩))
    rw [hnone]
    simp

/-- An element of the state after Map.set was already stored or is the
movie just set. -/
theorem mem_mapSet {s : List Movie} {m0 m : Movie} (h : m ∈ mapSet s m0) :
    m ∈ s ∨ m = m0 := by
  unfold mapSet at h
  split at h
  · rcases List.mem_map.mp h with ⟨x, hx, hxe⟩
    by_cases hid : (x.id == m0.id) = true
    · right
      rw [if_pos hid] at hxe
      exact hxe.symm
    · left
      rw [if_neg hid] at hxe
      exact hxe ▸ hx
  · rcases List.mem_append.mp h with h | h
    · left; exact h
    · right; simpa using h

/-- C4: for every stored entry and every partial update, when the id is
present updateMovie stores and returns the merge that replaces exactly the
supplied fields, keeps every unsupplied field together with id and
createdAt verbatim, and stamps updatedAt with the current time; when the
id is absent updateMovie fails with the not-found error. -/
theorem updateMovie_frame (s : List Movie) (id : String) (u : MovieUpdate)
    (now : Nat) :
    (∀ m, getMovie id s = some m →
      updateMovie id u now s =
        .ok (applyUpdate m u now, mapSet s (applyUpdate m u now)) ∧
      (applyUpdate m u now).id = m.id ∧
      (applyUpdate m u now).createdAt = m.createdAt ∧
      (applyUpdate m u now).updatedAt = now ∧
      (u.title = none → (applyUpdate m u now).title = m.title) ∧
      (∀ v, u.title = some v → (applyUpdate m u now).title = v) ∧
      (u.type = none → (applyUpdate m u now).type = m.type) ∧
      (∀ v, u.type = some v → (applyUpdate m u now).type = v) ∧
      (u.director = none → (applyUpdate m u now).director = m.director) ∧
      (∀ v, u.director = some v → (applyUpdate m u now).director = v) ∧
      (u.budget = none → (applyUpdate m u now).budget = m.budget) ∧
      (∀ v, u.budget = some v → (applyUpdate m u now).budget = v) ∧
      (u.location = none → (applyUpdate m u now).location = m.location) ∧
      (∀ v, u.location = some v → (applyUpdate m u now).location = v) ∧
      (u.duration = none → (applyUpdate m u now).duration = m.duration) ∧
      (∀ v, u.duration = some v → (applyUpdate m u now).duration = v) ∧
      (u.yearTime = none → (applyUpdate m u now).yearTime = m.yearTime) ∧
      (∀ v, u.yearTime = some v → (applyUpdate m u now).yearTime = v) ∧
      getMovie id (mapSet s (applyUpdate m u now)) =
        some (applyUpdate m u now)) ∧
    (getMovie id s = none →
      updateMovie id u now s = .error "Movie not found") := by
  constructor
  · intro m hm
    have hid : m.id = id := by
      have := List.find?_some hm
      simpa using this
    refine ⟨by simp [updateMovie, hm], rfl, rfl, rfl,
      ?_, ?_, ?_, ?_, ?_, ?_, ?_, ?_, ?_, ?_, ?_, ?_, ?_, ?_, ?_⟩
    all_goals try (intro hnone; simp [applyUpdate, hnone])
    all_goals try (intro v hv; simp [applyUpdate, hv])
    have hkey : (applyUpdate m u now).id = id := by
      simpa [applyUpdate] using hid
    rw [← hkey]
    exact getMovie_mapSet s (applyUpdate m u now)
  · intro hnone
    simp [updateMovie, hnone]

/-- The partial update used by the C4 witness: only the budget field is
supplied. -/
def demoBudgetUpdate : MovieUpdate := { budget := some "$200M" }

/-- Witness for C4 at a concrete store, id and partial update. -/
theorem updateMovie_frame_witness :
    getMovie demoUuid demoMovies = some demoMovieA ∧
    updateMovie demoUuid demoBudgetUpdate 300 demoMovies =
      .ok (applyUpdate demoMovieA demoBudgetUpdate 300,
        mapSet demoMovies (applyUpdate demoMovieA demoBudgetUpdate 300)) :=
  ⟨by decide,
    ((updateMovie_frame demoMovies demoUuid demoBudgetUpdate 300).1
      demoMovieA (by decide)).1⟩

/-! Helper lemmas for the timestamp invariant along traces. -/

/-- Weakening the clock bound of a timestamp-sane state. -/
theorem stateTimesOK_mono {t t2 : Nat} {s : List Movie}
    (h : stateTimesOK t s = true) (hle : t ≤ t2) :
    stateTimesOK t2 s = true := by
  simp only [stateTimesOK, List.all_eq_true, Bool.and_eq_true,
    decide_eq_true_eq] at h ⊢
  intro m hm
  exact ⟨(h m hm).1, le_trans (h m hm).2 hle⟩

/-- Map.set preserves timestamp sanity when the stored movie is sane. -/
theorem stateTimesOK_mapSet {t : Nat} {s : List Movie} {m0 : Movie}
    (hs : stateTimesOK t s = true) (h1 : m0.createdAt ≤ m0.updatedAt)
    (h2 : m0.updatedAt ≤ t) : stateTimesOK t (mapSet s m0) = true := by
  simp only [stateTimesOK, List.all_eq_true, Bool.and_eq_true,
    decide_eq_true_eq] at hs ⊢
  intro m hm
  rcases mem_mapSet hm with h | h
  · exact hs m h
  · subst h
    exact ⟨h1, h2⟩

/-- Final clock bound of a trace. -/
def clockEnd (t : Nat) : List StoreOp → Nat
  | [] => t
  | .create _ _ now :: ops => clockEnd now ops
  | .update _ _ now :: ops => clockEnd now ops
  | .delete _ :: ops => clockEnd t ops

/-- Running a clock-respecting trace preserves timestamp sanity. -/
theorem stateTimesOK_runOps :
    ∀ (ops : List StoreOp) (s : List Movie) (t : Nat),
      stateTimesOK t s = true → clockOK t ops = true →
      stateTimesOK (clockEnd t ops) (runOps s ops) = true
  | [], _, _, hs, _ => hs
  | .create f id now :: ops, s, t, hs, hc => by
    simp only [clockOK, Bool.and_eq_true, decide_eq_true_eq] at hc
    have hs2 : stateTimesOK now (applyOp s (.create f id now)) = true := by
      show stateTimesOK now (mapSet s (mkMovie f id now)) = true
      exact stateTimesOK_mapSet (stateTimesOK_mono hs hc.1)
        (Nat.le_refl _) (Nat.le_refl _)
    exact stateTimesOK_runOps ops _ now hs2 hc.2
  | .update id u now :: ops, s, t, hs, hc => by
    simp only [clockOK, Bool.and_eq_true, decide_eq_true_eq] at hc
    have hs2 : stateTimesOK now (applyOp s (.update id u now)) = true := by
      simp only [applyOp]
      cases hg : getMovie id s with
      | none =>
        simp only [updateMovie, hg]
        exact stateTimesOK_mono hs hc.1
      | some m =>
        simp only [updateMovie, hg]
        have hmem := List.mem_of_find?_eq_some hg
        have hm : m.createdAt ≤ m.updatedAt ∧ m.updatedAt ≤ t := by
          simp only [stateTimesOK, List.all_eq_true, Bool.and_eq_true,
            decide_eq_true_eq] at hs
          exact hs m hmem
        apply stateTimesOK_mapSet (stateTimesOK_mono hs hc.1)
        · show m.createdAt ≤ now
          omega
        · exact Nat.le_refl _
    exact stateTimesOK_runOps ops _ now hs2 hc.2
  | .delete id :: ops, s, t, hs, hc => by
    simp only [clockOK] at hc
    have hs2 : stateTimesOK t (applyOp s (.delete id)) = true := by
      simp only [applyOp, deleteMovie]
      simp only [stateTimesOK, List.all_eq_true, Bool.and_eq_true,
        decide_eq_true_eq] at hs ⊢
      intro m hm
      exact hs m (List.mem_of_mem_filter hm)
    exact stateTimesOK_runOps ops _ t hs2 hc

/-- C7: in every store state reachable by a trace whose clock readings
never go backwards, every entry satisfies createdAt ≤ updatedAt; creation
stamps createdAt and updatedAt with the same time, and an update under a
clock at or after the previous updatedAt never decreases updatedAt. -/
theorem timestamps_invariant (ops : List StoreOp) (t : Nat)
    (h : clockOK t ops = true) :
    (runOps [] ops).all
      (fun m => decide (m.createdAt ≤ m.updatedAt)) = true ∧
    (∀ f id now,
      (mkMovie f id now).createdAt = (mkMovie f id now).updatedAt) ∧
    (∀ m u now, m.updatedAt ≤ now →
      m.updatedAt ≤ (applyUpdate m u now).updatedAt) := by
  refine ⟨?_, fun f id now => rfl, fun m u now hle => hle⟩
  have h0 : stateTimesOK t [] = true := by simp [stateTimesOK]
  have hrun := stateTimesOK_runOps ops [] t h0 h
  simp only [stateTimesOK, List.all_eq_true, Bool.and_eq_true,
    decide_eq_true_eq] at hrun ⊢
  intro m hm
  exact (hrun m hm).1

/-- The insert payload used by the witness traces. -/
def demoInsert : InsertMovie :=
  { title := "Dune"
    type := "Movie"
    director := "Denis Villeneuve"
    budget := "$165M"
    location := "Jordan"
    duration := "155 min"
    yearTime := "2021" }

/-- A concrete trace: create, update, then a delete of an absent id. -/
def demoOps : List StoreOp :=
  [.create demoInsert demoUuid 100,
   .update demoUuid demoBudgetUpdate 300,
   .delete demoUuidB]

/-- Witness for C7 at a concrete trace. -/
theorem timestamps_invariant_witness :
    clockOK 0 demoOps = true ∧
    (runOps [] demoOps).all
      (fun m => decide (m.createdAt ≤ m.updatedAt)) = true :=
  ⟨by decide, (timestamps_invariant demoOps 0 (by decide)).1⟩

/-- C8: creating an entry and then fetching it by the returned id yields
the stored entry, equal in every submitted field to the request payload,
plus the server-assigned id and the two timestamps set to the creation
time. -/
theorem create_get_roundtrip (s : List Movie) (f : InsertMovie)
    (id : String) (now : Nat) :
    getMovie (createMovie f id now s).1.id (createMovie f id now s).2 =
      some (createMovie f id now s).1 ∧
    (createMovie f id now s).1.title = f.title ∧
    (createMovie f id now s).1.type = f.type ∧
    (createMovie f id now s).1.director = f.director ∧
    (createMovie f id now s).1.budget = f.budget ∧
    (createMovie f id now s).1.location = f.location ∧
    (createMovie f id now s).1.duration = f.duration ∧
    (createMovie f id now s).1.yearTime = f.yearTime ∧
    (createMovie f id now s).1.id = id ∧
    (createMovie f id now s).1.createdAt = now ∧
    (createMovie f id now s).1.updatedAt = now :=
  ⟨getMovie_mapSet s (mkMovie f id now), rfl, rfl, rfl, rfl, rfl, rfl,
    rfl, rfl, rfl, rfl⟩

/-- Lookup of a deleted id finds nothing. -/
theorem getMovie_deleteMovie (s : List Movie) (id : String) :
    getMovie id (deleteMovie id s) = none := by
  unfold getMovie deleteMovie
  apply List.find?_eq_none.mpr
  intro x hx
  have hne := (List.mem_filter.mp hx).2
  simp only [Bool.not_eq_eq_eq_not, Bool.not_true, beq_eq_false_iff_ne,
    ne_eq] at hne
  simp [hne]

/-- Deleting an absent id leaves the store unchanged. -/
theorem deleteMovie_noop {s : List Movie} {id : String}
    (h : getMovie id s = none) : deleteMovie id s = s := by
  unfold deleteMovie
  apply List.filter_eq_self.mpr
  intro a ha
  have hne := List.find?_eq_none.mp h a ha
  simp only [Bool.not_eq_true] at hne ⊢
  simp [hne]

/-- C5: deleting an existing well-formed id through the route answers 200
and removes the entry, deleting it again answers 404 (never 200 twice)
because the route checks existence before deleting; at the store layer,
deleting an absent id is a silent no-op on the collection. -/
theorem delete_twice (s : List Movie) (id : String)
    (hid : isUuid id = true) (hex : (getMovie id s).isSome = true) :
    (handleDeleteMovie id s).1.status = 200 ∧
    (handleDeleteMovie id s).2 = deleteMovie id s ∧
    (handleDeleteMovie id (handleDeleteMovie id s).2).1.status = 404 ∧
    (∀ s2 : List Movie, getMovie id s2 = none → deleteMovie id s2 = s2) := by
  obtain ⟨m, hm⟩ := Option.isSome_iff_exists.mp hex
  have h1 : handleDeleteMovie id s =
      ({ status := 200, data := none }, deleteMovie id s) := by
    simp [handleDeleteMovie, hid, hm]
  refine ⟨by rw [h1], by rw [h1], ?_, fun s2 h => deleteMovie_noop h⟩
  rw [h1]
  simp [handleDeleteMovie, hid, getMovie_deleteMovie]

/-- Witness for C5 at a concrete store and id. -/
theorem delete_twice_witness :
    isUuid demoUuid = true ∧
    (handleDeleteMovie demoUuid demoMovies).1.status = 200 ∧
    (handleDeleteMovie demoUuid
      (handleDeleteMovie demoUuid demoMovies).2).1.status = 404 :=
  ⟨by decide,
    (delete_twice demoMovies demoUuid (by decide) (by decide)).1,
    (delete_twice demoMovies demoUuid (by decide) (by decide)).2.2.1⟩

/-- The empty JSON body of Scenario E: no field supplied. -/
def emptyUpdate : MovieUpdate := {}

/-- C9: a PUT with a well-formed id and an empty body answers 400 (the
partial schema rejects a body with no keys) and applies no update; a PUT
with a well-formed id, a body passing the partial schema, and an id absent
from the store answers 404 — existence is checked through storage.getMovie
before updating — and applies no update. -/
theorem putRoute_errors (s : List Movie) (idStr : String) (u : MovieUpdate)
    (now : Nat) (hid : isUuid idStr = true) :
    handlePutMovie idStr emptyUpdate now s =
      ({ status := 400, data := none }, s) ∧
    (updateValid u = true → getMovie idStr s = none →
      handlePutMovie idStr u now s = ({ status := 404, data := none }, s)) := by
  constructor
  · have hv : updateValid emptyUpdate = false := rfl
    simp [handlePutMovie, hid, hv]
  · intro hu hg
    simp [handlePutMovie, hid, hu, hg]

/-- Witness for C9: the empty body on a populated store, and a valid body
on an empty store. -/
theorem putRoute_errors_witness :
    isUuid demoUuid = true ∧
    handlePutMovie demoUuid emptyUpdate 0 demoMovies =
      ({ status := 400, data := none }, demoMovies) ∧
    handlePutMovie demoUuid demoBudgetUpdate 0 [] =
      ({ status := 404, data := none }, []) :=
  ⟨by decide,
    (putRoute_errors demoMovies demoUuid demoBudgetUpdate 0 (by decide)).1,
    (putRoute_errors [] demoUuid demoBudgetUpdate 0 (by decide)).2
      (by decide) (by decide)⟩

/-- C6 counterexample: the literal TVShow is rejected by the type rule of
insertMovieSchema, so a create request using it fails with 400 even though
the claim says it must be accepted; the accepted second literal is
TV Show, with a space. -/
theorem typeValid_counterexample :
    typeValid "TVShow" = false ∧ typeValid "TV Show" = true ∧
    (handleCreateMovie { demoInsert with type := "TVShow" }
      demoUuid 0 []).1.status = 400 := by
  refine ⟨rfl, rfl, ?_⟩
  decide

/-- C6 amended: the type field accepts exactly the two literal values
Movie and TV Show; a create request whose type is neither literal fails
validation with 400, and so does an update request supplying such a
type. -/
theorem typeValid_spec (t : String) :
    (typeValid t = true ↔ (t = "Movie" ∨ t = "TV Show")) ∧
    (∀ (b : InsertMovie) id now s, b.type = t →
      t ≠ "Movie" → t ≠ "TV Show" →
      (handleCreateMovie b id now s).1.status = 400) ∧
    (∀ idStr u now s, isUuid idStr = true → u.type = some t →
      t ≠ "Movie" → t ≠ "TV Show" →
      (handlePutMovie idStr u now s).1.status = 400) := by
  have hiff : typeValid t = true ↔ (t = "Movie" ∨ t = "TV Show") := by
    simp [typeValid]
  refine ⟨hiff, ?_, ?_⟩
  · intro b id now s hbt h1 h2
    have htv : typeValid b.type = false := by
      rw [hbt]
      rcases Bool.eq_false_or_eq_true (typeValid t) with h | h
      · exact absurd (hiff.mp h) (by simp [h1, h2])
      · exact h
    simp [handleCreateMovie, insertMovieValid, htv]
  · intro idStr u now s hid hut h1 h2
    have htv : typeValid t = false := by
      rcases Bool.eq_false_or_eq_true (typeValid t) with h | h
      · exact absurd (hiff.mp h) (by simp [h1, h2])
      · exact h
    have hv : updateValid u = false := by
      simp [updateValid, hut, optFieldValid, htv]
    simp [handlePutMovie, hid, hv]

/-- Witness for C6 amended at a concrete rejected literal. -/
theorem typeValid_spec_witness :
    (handleCreateMovie { demoInsert with type := "Documentary" }
      demoUuid 0 []).1.status = 400 :=
  (typeValid_spec "Documentary").2.1 _ demoUuid 0 [] rfl
    (by decide) (by decide)

/-- Every character admissible at position i of a version-4 uuid is
admissible at the same position of the zod uuid pattern. -/
theorem v4CharOK_imp_zod (i : Nat) (c : Char) (h : v4CharOK i c = true) :
    zodUuidCharOK i c = true := by
  unfold v4CharOK at h
  unfold zodUuidCharOK
  by_cases hdash : (i == 8 || i == 13 || i == 18 || i == 23) = true
  · rw [if_pos hdash] at h ⊢
    exact h
  · rw [if_neg hdash] at h ⊢
    by_cases h14 : (i == 14) = true
    · rw [if_pos h14] at h
      have hc : c = '4' := by simpa using h
      subst hc
      decide
    · rw [if_neg h14] at h
      by_cases h19 : (i == 19) = true
      · rw [if_pos h19] at h
        have hc : ((c = '8' ∨ c = '9') ∨ c = 'a') ∨ c = 'b' := by
          simpa [Bool.or_eq_true] using h
        rcases hc with ((hc | hc) | hc) | hc <;> subst hc <;> decide
      · rw [if_neg h19] at h
        simp only [isLowerHex, Bool.or_eq_true] at h
        simp only [isHexDigit, Bool.or_eq_true]
        exact Or.inl h

/-- Every string crypto.randomUUID can return passes the zod uuid
validation. -/
theorem isUuid_of_isRandomUUID (s : String) (h : isRandomUUID s = true) :
    isUuid s = true := by
  unfold isRandomUUID at h
  unfold isUuid
  simp only [Bool.and_eq_true] at h
  obtain ⟨hlen, hall⟩ := h
  simp only [Bool.and_eq_true]
  refine ⟨hlen, ?_⟩
  rw [List.all_eq_true] at hall ⊢
  intro i hi
  exact v4CharOK_imp_zod i _ (hall i hi)

/-- C10: the id assigned by createMovie (a crypto.randomUUID string)
always passes the id-format validation of the routes, so the created entry
is addressable over the HTTP API: fetching it by its returned id answers
200, never a 400 for a malformed id. -/
theorem created_id_addressable (s : List Movie) (f : InsertMovie)
    (id : String) (now : Nat) (h : isRandomUUID id = true) :
    isUuid (createMovie f id now s).1.id = true ∧
    (handleGetMovie (createMovie f id now s).1.id
      (createMovie f id now s).2).status = 200 := by
  have hu : isUuid id = true := isUuid_of_isRandomUUID id h
  have hget : getMovie id (mapSet s (mkMovie f id now)) =
      some (mkMovie f id now) := getMovie_mapSet s (mkMovie f id now)
  have hmk : (mkMovie f id now).id = id := rfl
  exact ⟨hu, by simp [handleGetMovie, createMovie, hmk, hu, hget]⟩

/-- Witness for C10 at a concrete version-4 uuid. -/
theorem created_id_addressable_witness :
    isRandomUUID demoUuid = true ∧
    isUuid (createMovie demoInsert demoUuid 100 []).1.id = true :=
  ⟨by decide,
    (created_id_addressable [] demoInsert demoUuid 100 (by decide)).1⟩
